import Mathlib

/-!
Shallow embedding of the date-selection state engine of
src/src/DatePicker/useDatePicker.tsx, and theorems settling the claims
about it.

Conventions of the embedding:
* A JavaScript `Date` is `JSDate`: either a valid timestamp in integer
  milliseconds since the epoch, or the Invalid Date value.
* `new Date(new Date(d).toDateString())` (the normalization idiom of the
  source) floors a valid timestamp to its calendar-day midnight and maps
  Invalid Date to Invalid Date; time zones are out of scope (per the spec),
  so midnight is modelled as the multiple of `msPerDay` at or below `t`.
* `JS null`/`undefined` selection values are the `Selection.none`
  constructor; a JS exception (TypeError from spreading a non-iterable) is
  `Option.none` in the result of the operation that throws.
* `Array.prototype.sort` with comparator `(a, b) => a.getTime() - b.getTime()`
  is a stable ascending sort, embedded as `List.insertionSort` (stable) on
  the `jsLe` order. Invalid Date has no meaningful sort key in JS (NaN
  comparator); `getTime` maps it to 0 here, and no theorem below sorts a
  list containing Invalid Date.
-/

namespace DatePicker

/-- A JavaScript Date value: a valid millisecond timestamp or Invalid Date. -/
inductive JSDate where
  | valid (time : Int)
  | invalid
deriving DecidableEq

def msPerDay : Int := 86400000

/-- `d.getTime()`. For Invalid Date JS yields NaN; it is mapped to 0 here and
never relied on (no theorem sorts or compares an Invalid Date). -/
def JSDate.getTime : JSDate → Int
  | .valid t => t
  | .invalid => 0

def JSDate.isValid : JSDate → Prop
  | .valid _ => True
  | .invalid => False

instance : DecidablePred JSDate.isValid := fun d =>
  match d with
  | .valid _ => .isTrue True.intro
  | .invalid => .isFalse (fun h => h)

/-- `new Date(new Date(d).toDateString())`: truncate to calendar-day
granularity (midnight of the day containing `t`). -/
def normalize : JSDate → JSDate
  | .valid t => .valid (msPerDay * (t / msPerDay))
  | .invalid => .invalid

/-- The calendar day of a valid date (floored epoch-day index; `Int`
division is Euclidean, so this floors for the positive divisor). -/
def JSDate.dayOf : JSDate → Int
  | .valid t => t / msPerDay
  | .invalid => 0

/-- date-fns `isEqual(a, b)`: timestamp equality; false when either side is
Invalid Date (NaN compares unequal to everything, itself included). -/
def isEqual : JSDate → JSDate → Bool
  | .valid a, .valid b => a == b
  | _, _ => false

/-- date-fns `isBefore(a, b)`: strict timestamp order, false on Invalid Date. -/
def isBefore : JSDate → JSDate → Bool
  | .valid a, .valid b => a < b
  | _, _ => false

/-- date-fns `isAfter(a, b)`. -/
def isAfter : JSDate → JSDate → Bool
  | .valid a, .valid b => b < a
  | _, _ => false

/-- Sort order used by every `.sort((a, b) => a.getTime() - b.getTime())`
call in the source. -/
def jsLe (a b : JSDate) : Prop := a.getTime ≤ b.getTime

instance : DecidableRel jsLe := fun a b => Int.decLe a.getTime b.getTime

instance : IsTotal JSDate jsLe := ⟨fun a b => Int.le_total a.getTime b.getTime⟩

instance : IsTrans JSDate jsLe := ⟨fun _ _ _ h h' => le_trans h h'⟩

/-- `arr.sort((a, b) => a.getTime() - b.getTime())` (stable, ascending). -/
def jsSort (ds : List JSDate) : List JSDate := List.insertionSort jsLe ds

/-- The `RangeSelection` record `{from: Date, to: Date | null}`.
`from` is a Lean keyword, hence `fromDate`/`toDate`. -/
structure RangeSelection where
  fromDate : JSDate
  toDate : Option JSDate
deriving DecidableEq

/-- The `Selection` union: `Date | Array<Date> | RangeSelection | null`.
`none` stands for both JS `null` and `undefined`. -/
inductive Selection where
  | none
  | single (d : JSDate)
  | multi (ds : List JSDate)
  | range (fromDate : JSDate) (toDate : Option JSDate)
deriving DecidableEq

/-- `selection[i]` followed by `new Date(new Date(·).toDateString())`:
out-of-bounds indexing gives `undefined`, and `new Date(undefined)` is
Invalid Date. -/
def jsIndexNormalize (ds : List JSDate) (i : Nat) : JSDate :=
  match ds.get? i with
  | some d => normalize d
  | Option.none => .invalid

/-- `parseSelection(selection, variant)` (useDatePicker.tsx lines 151-202).
The selection mode is a runtime string: `"multi"` and `"range"` are tested
explicitly and every other string falls into the single-mode `else` branch,
exactly as in the source. `isRangeSelection` (`!!selection.from`) is true
precisely for the `range` constructor, whose `from` field is always a Date
object (truthy even when Invalid). The fall-through `return` of the single
branch is unreachable here because the four constructors exhaust the JS
`Selection` type. -/
def parseSelection (selection : Selection) (variant : String) : Selection :=
  match selection with
  | .none => .none
  | sel =>
    if variant = "multi" then
      match sel with
      | .multi ds => .multi (jsSort (ds.map normalize))
      | .single d => .multi [normalize d]
      | .range f t =>
        .multi (jsSort (normalize f :: (match t with
          | some t' => [normalize t']
          | Option.none => [])))
      | .none => .none
    else if variant = "range" then
      match sel with
      | .range f t => .range (normalize f) (t.map normalize)
      | .multi ds =>
        .range (jsIndexNormalize ds 0)
          (match ds.get? 1 with
           | some d => some (normalize d)
           | Option.none => Option.none)
      | .single d => .range (normalize d) Option.none
      | .none => .none
    else
      match sel with
      | .single d => .single (normalize d)
      | .multi ds => .single (jsIndexNormalize ds 0)
      | .range f _ => .single (normalize f)
      | .none => .none

example :
    parseSelection (.multi [.valid (2 * msPerDay), .valid 0, .valid 3600000]) "multi"
      = .multi [.valid 0, .valid 0, .valid (2 * msPerDay)] := by decide

/-- `DatePickerConfiguration` after the deep-merge over
`defaultConfiguration`: the defaulted fields are plain, the rest stay
optional. The selection mode (`selection`) is a runtime string, matching the
erased TS union. Fields not consumed by this core (anchorVariant, view,
weekStartsOn, dimWeekends, contiguousSelection, rangeIncrement) are carried
as plain data. -/
structure DatePickerConfiguration where
  anchorVariant : String := "button"
  blockedDates : Option (List JSDate) := Option.none
  confirmation : Bool := false
  contiguousSelection : Bool := false
  dateFormat : Option String := Option.none
  dimWeekends : Bool := false
  minDate : Option JSDate := Option.none
  maxDate : Option JSDate := Option.none
  placeholder : String := "Select a Date..."
  rangeIncrement : Option Int := Option.none
  selection : String := "single"
  view : String := "2-month"
  weekStartsOn : String := "Sunday"
deriving DecidableEq

/-- The provider state: the `useState` cells of `DatePickerProvider`, plus
`closeCount`, which counts invocations of the external `closePicker`
collaborator (so "notifies the close collaborator" is observable). -/
structure PickerState where
  configuration : DatePickerConfiguration
  selection : Selection
  previousSelection : Selection
  hoverRange : Option RangeSelection
  currentViewingDate : JSDate
  closeCount : Nat
deriving DecidableEq

/-- `saveValue(updatedSelection?)` (lines 321-327): sets
`previousSelection = updatedSelection ?? selection`, then calls
`closePicker?.()`. The argument is JS-optional; both `undefined` and `null`
fall back to the current selection via `??`, and both are `Selection.none`
here. -/
def saveValue (updatedSelection : Selection) (s : PickerState) : PickerState :=
  { s with
    previousSelection :=
      match updatedSelection with
      | .none => s.selection
      | u => u
    closeCount := s.closeCount + 1 }

/-- The multi-mode body of `selectionHandler` (lines 331-339), assuming the
spread `[...selection]` succeeded on an array `ds`: find the first element
`isEqual` to `date`; if found, splice it out and re-sort, else append and
re-sort. -/
def toggleMulti (ds : List JSDate) (date : JSDate) : List JSDate :=
  match ds.findIdx? (fun s => isEqual s date) with
  | some i => jsSort (ds.eraseIdx i)
  | Option.none => jsSort (ds ++ [date])

/-- `selectionHandler(date)` (lines 329-363). Returns `Option.none` exactly
when the JS code throws: in multi mode, `[...(selection as Array<Date>)]`
spreads the current selection, a TypeError unless it is actually an array
(`null`/`undefined`, a `Date`, and a range object are all non-iterable).
In range mode the close branch runs when `selection && isRangeSelection &&
!selection.to`; otherwise a new open range and hover preview start. Every
other mode string takes the single-mode `else` branch. -/
def selectionHandler (date : JSDate) (s : PickerState) : Option PickerState :=
  if s.configuration.selection = "multi" then
    match s.selection with
    | .multi ds => some { s with selection := .multi (toggleMulti ds date) }
    | _ => Option.none
  else if s.configuration.selection = "range" then
    match s.selection with
    | .range f Option.none =>
      let updatedSelection :=
        if isBefore date f then Selection.range date (some f)
        else Selection.range f (some date)
      let s1 := { s with selection := updatedSelection, hoverRange := Option.none }
      some (if s.configuration.confirmation then s1 else saveValue updatedSelection s1)
    | _ =>
      some { s with
        hoverRange := some ⟨date, some date⟩
        selection := .range date Option.none }
  else
    let s1 := { s with selection := Selection.single date }
    some (if s.configuration.confirmation then s1 else saveValue (.single date) s1)

/-- `focusHnadler(date)` (lines 365-376): no-op unless a selection exists,
the mode is range, the selection is a range, and a hover preview is active;
then the hover preview is recomputed around `selection.from`. -/
def focusHnadler (date : JSDate) (s : PickerState) : PickerState :=
  match s.selection with
  | .none => s
  | .range f _ =>
    if s.configuration.selection = "range" then
      match s.hoverRange with
      | some _ =>
        let hr : RangeSelection :=
          if isBefore date f then ⟨date, some f⟩ else ⟨f, some date⟩
        { s with hoverRange := some hr }
      | Option.none => s
    else s
  | _ => s

/-- `blurHnadler(date)` (lines 378-391): the body is commented out in the
source; the handler changes nothing. -/
def blurHnadler (_date : JSDate) (s : PickerState) : PickerState := s

/-- `goToMonth(date)` (lines 237-239). -/
def goToMonth (date : JSDate) (s : PickerState) : PickerState :=
  { s with currentViewingDate := normalize date }

/-- `revertValue()` (lines 393-395): `setSelection(previousSelection)`. -/
def revertValue (s : PickerState) : PickerState :=
  { s with selection := s.previousSelection }

/-- The `blocked` flag of `useDatePicker(date)` (lines 108-112):
`!!configuration.blockedDates.find(d => isEqual(d, date))` when
`blockedDates` is set, otherwise the flag stays `undefined` (falsy). -/
def blockedFlag (configuration : DatePickerConfiguration) (date : JSDate) : Bool :=
  match configuration.blockedDates with
  | some bds => bds.any (fun d => isEqual d date)
  | Option.none => false

/-- The `disabled` flag of `useDatePicker(date)` (lines 114-119). -/
def disabledFlag (configuration : DatePickerConfiguration) (date : JSDate) : Bool :=
  if configuration.minDate.isSome || configuration.maxDate.isSome then
    (match configuration.minDate with
     | some m => isBefore date m
     | Option.none => false) ||
    (match configuration.maxDate with
     | some m => isAfter date m
     | Option.none => false)
  else false

/-- Model of the external date-fns `format(date, template)`: a rendering
determined by the date and the template. Its exact output text is outside
this repository; all theorems below depend only on which branch of
`getFormattedDate` runs and on `formatDate` never colliding with the
literal sentinels `"Invalid Selection"` / `"Invalid Configuration"`, which
holds for date-fns (it renders per the pattern, and throws rather than
returning a sentinel on Invalid Date — the `"#invalid"` value here stands
for that error path, which no theorem reaches). -/
def formatDate (d : JSDate) (template : String) : String :=
  match d with
  | .valid t => template ++ "#" ++ toString t
  | .invalid => "#invalid"

/-- `selection[i]` used directly (no normalization), as in the formatter;
out of bounds gives `undefined`, which date-fns coerces to Invalid Date. -/
def jsIndexRaw (ds : List JSDate) (i : Nat) : JSDate :=
  match ds.get? i with
  | some d => d
  | Option.none => .invalid

/-- `d ? format(d, template) : ''` over an optional date (range endpoints). -/
def formatOptDate (d : Option JSDate) (template : String) : String :=
  match d with
  | some d' => formatDate d' template
  | Option.none => ""

/-- Template resolution of `getFormattedDate` (lines 254-267): `"short"` and
the absent or empty (falsy) `dateFormat` give the day-month pattern,
`"long"` the day-month-year pattern, and any other string is used verbatim. -/
def resolveTemplate (configuration : DatePickerConfiguration) : String :=
  match configuration.dateFormat with
  | Option.none => "MMM d"
  | some f =>
    if f = "" then "MMM d"
    else if f = "short" then "MMM d"
    else if f = "long" then "MMM d, yyyy"
    else f

/-- `getFormattedDate` (lines 249-319). `!selection` is only the null case;
the template resolution treats the empty string as falsy exactly like the
source's `if (configuration.dateFormat)`. `Object.entries` on the range
literals preserves insertion order `[from, to]`. In the constructor
embedding the `isRangeSelection` shape sniff is true precisely for `range`
values, so the `'Invalid Selection'` fall-through branches of the source are
unreachable (the JS `Selection` type has no further inhabitants either).
In the range-mode array branch both entries sit behind the source's
`date ? format(date, template) : ''` truthiness guard, so a missing
`selection[0]` or `selection[1]` renders as the empty string
(`formatOptDate` over `List.get?`); the single-mode array branch has no such
guard and formats `selection[0]` directly (`jsIndexRaw`). -/
def getFormattedDateSome (configuration : DatePickerConfiguration)
    (sel : Selection) : String :=
    let template := resolveTemplate configuration
    if configuration.selection = "single" then
      match sel with
      | .single d => formatDate d template
      | .multi ds => formatDate (jsIndexRaw ds 0) template
      | .range f _ => formatDate f template
      | .none => "Invalid Selection"
    else if configuration.selection = "multi" then
      match sel with
      | .multi ds =>
        if ds.length > 3 then toString ds.length ++ " Selected"
        else String.intercalate ", " (ds.map (fun d => formatDate d template))
      | .single d => String.intercalate ", " [formatDate d template]
      | .range f t =>
        String.intercalate ", " [formatOptDate t template, formatDate f template]
      | .none => "Invalid Selection"
    else if configuration.selection = "range" then
      match sel with
      | .range f t =>
        String.intercalate " - " [formatDate f template, formatOptDate t template]
      | .single d =>
        String.intercalate " - " [formatDate d template, formatOptDate Option.none template]
      | .multi ds =>
        String.intercalate " - "
          [formatOptDate (ds.get? 0) template,
           formatOptDate (ds.get? 1) template]
      | .none => "Invalid Selection"
    else "Invalid Configuration"

/-- The `!selection` early return of `getFormattedDate`: null gives the
placeholder, everything else formats per mode. -/
def getFormattedDate (configuration : DatePickerConfiguration)
    (selection : Selection) : String :=
  match selection with
  | .none => configuration.placeholder
  | sel => getFormattedDateSome configuration sel

/-- The interaction entry points that mutate the store: day choice, day
focus/blur, month jump, commit, revert. -/
inductive Action where
  | select (date : JSDate)
  | dayFocus (date : JSDate)
  | dayBlur (date : JSDate)
  | monthJump (date : JSDate)
  | save (updatedSelection : Selection)
  | revert
deriving DecidableEq

/-- Run one entry point; `Option.none` when the handler throws. -/
def applyAction (a : Action) (s : PickerState) : Option PickerState :=
  match a with
  | .select d => selectionHandler d s
  | .dayFocus d => some (focusHnadler d s)
  | .dayBlur d => some (blurHnadler d s)
  | .monthJump d => some (goToMonth d s)
  | .save u => some (saveValue u s)
  | .revert => some (revertValue s)

/-- Run a list of entry points left to right, stopping on a throw. -/
def runActions (acts : List Action) (s : PickerState) : Option PickerState :=
  match acts with
  | [] => some s
  | a :: rest =>
    match applyAction a s with
    | some s' => runActions rest s'
    | Option.none => Option.none

/-- Non-committing actions: with `confirmation = true` no day choice invokes
`saveValue` (the single and range-close branches test `!confirmation`, the
multi branch never commits); focus, blur, month jump and revert never do.
Only an explicit `save` commits then. -/
def tentativeAction (configuration : DatePickerConfiguration) : Action → Prop
  | .select _ => configuration.confirmation = true ∨ configuration.selection = "multi"
  | .save _ => False
  | _ => True

/-! ## Helper lemmas -/

theorem msPerDay_ne : msPerDay ≠ 0 := by decide

theorem normalize_normalize (d : JSDate) : normalize (normalize d) = normalize d := by
  cases d with
  | valid t => simp [normalize, Int.mul_ediv_cancel_left _ msPerDay_ne]
  | invalid => rfl

theorem jsSort_perm (l : List JSDate) : (jsSort l).Perm l :=
  List.perm_insertionSort jsLe l

theorem jsSort_sorted (l : List JSDate) : List.Sorted jsLe (jsSort l) :=
  List.sorted_insertionSort jsLe l

theorem jsSort_of_sorted {l : List JSDate} (h : List.Sorted jsLe l) : jsSort l = l :=
  h.insertionSort_eq

/-! ## C1 — multi-mode parsing of an array -/

/-- C1, counterexample: parsing the array
`[2024-01-03T02:00, 2024-01-01T00:00, 2024-01-01T01:00]` in multi mode keeps
the duplicate calendar day 2024-01-01 (epoch day 19723): the source never
deduplicates, so the claimed result `[2024-01-01, 2024-01-03]` is wrong. -/
theorem C1_counterexample :
    parseSelection
        (.multi [.valid (19725 * msPerDay + 7200000), .valid (19723 * msPerDay),
                 .valid (19723 * msPerDay + 3600000)]) "multi"
      = .multi [.valid (19723 * msPerDay), .valid (19723 * msPerDay),
                .valid (19725 * msPerDay)]
    ∧ Selection.multi [.valid (19723 * msPerDay), .valid (19723 * msPerDay),
                       .valid (19725 * msPerDay)]
      ≠ .multi [.valid (19723 * msPerDay), .valid (19725 * msPerDay)] := by
  constructor
  · decide
  · decide

/-- C1 (amended): in multi mode, parsing an array of dates yields all
elements normalized to calendar-day granularity and sorted ascending, with
duplicates preserved — the parser does not deduplicate. -/
theorem C1_parse_multi_sorted_no_dedup (ds : List JSDate) :
    parseSelection (.multi ds) "multi" = .multi (jsSort (ds.map normalize))
    ∧ (jsSort (ds.map normalize)).Perm (ds.map normalize)
    ∧ List.Sorted jsLe (jsSort (ds.map normalize)) :=
  ⟨rfl, jsSort_perm _, jsSort_sorted _⟩

/-! ## C4 — formatter behavior on shape mismatch and unknown mode -/

/-- C4, counterexample: a `Range` selection under single mode is coerced
(the formatter renders `selection.from`), not rejected: the result is not
the literal `"Invalid Selection"`. -/
theorem C4_counterexample :
    getFormattedDate { selection := "single" }
        (.range (.valid 0) (some (.valid msPerDay)))
      = formatDate (.valid 0) "MMM d"
    ∧ getFormattedDate { selection := "single" }
        (.range (.valid 0) (some (.valid msPerDay)))
      ≠ "Invalid Selection" := by
  constructor
  · decide
  · decide

/-- C4 (amended): for every selection value whose shape does not match the
configured mode, the formatter does not take the `"Invalid Selection"`
fallback — it coerces the value and formats it: under single mode an array
renders its first element and a range its `from` endpoint; under multi mode
a lone date renders as a one-element list and a range as `"to, from"`;
under range mode a lone date renders as `"d - "` and an array as
`"arr[0] - arr[1]"` with a blank side for a missing entry. For an
unrecognized selection mode, the formatter returns the literal
`"Invalid Configuration"` for every non-null selection. -/
theorem C4_format_coerce_and_config (configuration : DatePickerConfiguration)
    (sel : Selection) (d f : JSDate) (t : Option JSDate) (ds : List JSDate) :
    (configuration.selection = "single" →
      getFormattedDate configuration (.range f t)
        = formatDate f (resolveTemplate configuration)
      ∧ getFormattedDate configuration (.multi ds)
        = formatDate (jsIndexRaw ds 0) (resolveTemplate configuration))
    ∧ (configuration.selection = "multi" →
      getFormattedDate configuration (.single d)
        = formatDate d (resolveTemplate configuration)
      ∧ getFormattedDate configuration (.range f t)
        = formatOptDate t (resolveTemplate configuration) ++ ", "
            ++ formatDate f (resolveTemplate configuration))
    ∧ (configuration.selection = "range" →
      getFormattedDate configuration (.single d)
        = formatDate d (resolveTemplate configuration) ++ " - "
      ∧ getFormattedDate configuration (.multi ds)
        = formatOptDate (ds.get? 0) (resolveTemplate configuration) ++ " - "
            ++ formatOptDate (ds.get? 1) (resolveTemplate configuration))
    ∧ (configuration.selection ≠ "single" → configuration.selection ≠ "multi" →
       configuration.selection ≠ "range" → sel ≠ .none →
       getFormattedDate configuration sel = "Invalid Configuration") := by
  refine ⟨fun h => ⟨?_, ?_⟩, fun h => ⟨?_, ?_⟩, fun h => ⟨?_, ?_⟩, ?_⟩
  · simp [getFormattedDate, getFormattedDateSome, h]
  · simp [getFormattedDate, getFormattedDateSome, h]
  · simp [getFormattedDate, getFormattedDateSome, h,
      String.intercalate, String.intercalate.go]
  · simp [getFormattedDate, getFormattedDateSome, h,
      String.intercalate, String.intercalate.go]
  · simp [getFormattedDate, getFormattedDateSome, h, formatOptDate,
      String.intercalate, String.intercalate.go]
  · simp [getFormattedDate, getFormattedDateSome, h,
      String.intercalate, String.intercalate.go]
  · intro h1 h2 h3 h4
    cases sel with
    | none => exact absurd rfl h4
    | single d0 => simp [getFormattedDate, getFormattedDateSome, h1, h2, h3]
    | multi ds0 => simp [getFormattedDate, getFormattedDateSome, h1, h2, h3]
    | range rf rt => simp [getFormattedDate, getFormattedDateSome, h1, h2, h3]

/-- C4 witness: concrete instances of the coercions in each mode and of the
unknown-mode fallback. -/
theorem C4_witness :
    getFormattedDate { selection := "single" } (.range (.valid 0) Option.none)
      = formatDate (.valid 0) (resolveTemplate { selection := "single" })
    ∧ getFormattedDate { selection := "multi" }
        (.range (.valid 0) (some (.valid msPerDay)))
      = formatOptDate (some (.valid msPerDay)) (resolveTemplate { selection := "multi" })
          ++ ", " ++ formatDate (.valid 0) (resolveTemplate { selection := "multi" })
    ∧ getFormattedDate { selection := "range" } (.single (.valid 0))
      = formatDate (.valid 0) (resolveTemplate { selection := "range" }) ++ " - "
    ∧ getFormattedDate { selection := "bogus" } (.single (.valid 0))
      = "Invalid Configuration" :=
  ⟨((C4_format_coerce_and_config { selection := "single" } (.single (.valid 0))
      (.valid 0) (.valid 0) Option.none []).1 rfl).1,
   ((C4_format_coerce_and_config { selection := "multi" } (.single (.valid 0))
      (.valid 0) (.valid 0) (some (.valid msPerDay)) []).2.1 rfl).2,
   ((C4_format_coerce_and_config { selection := "range" } (.single (.valid 0))
      (.valid 0) (.valid 0) Option.none []).2.2.1 rfl).1,
   (C4_format_coerce_and_config { selection := "bogus" } (.single (.valid 0))
      (.valid 0) (.valid 0) Option.none []).2.2.2
     (by decide) (by decide) (by decide) (by decide)⟩

/-! ## C5 — blocked-date membership -/

/-- The blocked-membership predicate as the claim states it (stated from the
spec's words, for comparison with `blockedFlag`): the queried date is a
member of `blockedDates` under normalized calendar-day equality. -/
def specBlockedNormalized (configuration : DatePickerConfiguration)
    (date : JSDate) : Prop :=
  ∃ b ∈ configuration.blockedDates.getD [], normalize b = normalize date

/-- C5, counterexample: a blocked date at midnight and a query one hour into
the same calendar day are normalized-equal, yet the source's exact `isEqual`
check reports the day as not blocked. -/
theorem C5_counterexample :
    blockedFlag { blockedDates := some [.valid 0] } (.valid 3600000) = false
    ∧ specBlockedNormalized { blockedDates := some [.valid 0] } (.valid 3600000) := by
  refine ⟨by decide, ⟨.valid 0, by decide, by decide⟩⟩

/-- C5 (amended): the blocked flag is true iff the queried date is a member
of `blockedDates` by exact timestamp equality (`isEqual`), not by
normalized calendar-day equality; an absent `blockedDates` blocks nothing. -/
theorem C5_blocked_exact_equality (configuration : DatePickerConfiguration)
    (date : JSDate) :
    blockedFlag configuration date = true
      ↔ ∃ b ∈ configuration.blockedDates.getD [], isEqual b date = true := by
  cases h : configuration.blockedDates with
  | none => simp [blockedFlag, h]
  | some bds => simp [blockedFlag, h, List.any_eq_true]

/-! ## C10 — revert mutates only the selection -/

/-- C10: `revertValue` writes only `Selection` (setting it to
`PreviousSelection`); the hover range, the previous selection, the
configuration, the viewing date and the close-notification count are all
unchanged. -/
theorem C10_revert_frame (s : PickerState) :
    (revertValue s).selection = s.previousSelection
    ∧ (revertValue s).hoverRange = s.hoverRange
    ∧ (revertValue s).previousSelection = s.previousSelection
    ∧ (revertValue s).configuration = s.configuration
    ∧ (revertValue s).currentViewingDate = s.currentViewingDate
    ∧ (revertValue s).closeCount = s.closeCount :=
  ⟨rfl, rfl, rfl, rfl, rfl, rfl⟩

/-! ## C2 — the Range invariant -/

/-- The spec's Range invariant at normalized calendar-day ordering: whenever
`to` is non-null, `from <= to`. -/
def rangeInvariant : Selection → Prop
  | .range f (some t) => f.dayOf ≤ t.dayOf
  | _ => True

instance : DecidablePred rangeInvariant := fun s =>
  match s with
  | .range f (some t) => inferInstanceAs (Decidable (f.dayOf ≤ t.dayOf))
  | .range _ Option.none => .isTrue trivial
  | .none => .isTrue trivial
  | .single _ => .isTrue trivial
  | .multi _ => .isTrue trivial

/-- C2, counterexample: the parser copies a `{from, to}` pair without
reordering, so the reversed input `{from: day 1, to: day 0}` parses to a
Range violating `from <= to`. -/
theorem C2_counterexample :
    parseSelection (.range (.valid msPerDay) (some (.valid 0))) "range"
      = .range (.valid msPerDay) (some (.valid 0))
    ∧ ¬ rangeInvariant (.range (.valid msPerDay) (some (.valid 0))) := by
  constructor
  · decide
  · decide

/-- C2 (amended): day-choice mutations do establish the invariant — any
selection written by `selectionHandler` satisfies it (closing a range orders
the endpoints; opening one leaves `to` null) — but the parser does not, as
the counterexample shows. Valid dates are assumed for the chosen day and
for the `from` endpoint of an open range. -/
theorem C2_mutation_range_invariant (s : PickerState) (d : JSDate)
    (s' : PickerState) (hd : d.isValid)
    (hopen : ∀ f, s.selection = .range f Option.none → f.isValid)
    (h : selectionHandler d s = some s') :
    rangeInvariant s'.selection := by
  by_cases hm : s.configuration.selection = "multi"
  · cases hsel : s.selection with
    | multi ds =>
      simp [selectionHandler, hm, hsel] at h
      subst h; exact trivial
    | none => simp [selectionHandler, hm, hsel] at h
    | single d0 => simp [selectionHandler, hm, hsel] at h
    | range f t => simp [selectionHandler, hm, hsel] at h
  · by_cases hr : s.configuration.selection = "range"
    · cases hsel : s.selection with
      | range f t =>
        cases t with
        | none =>
          have hf : f.isValid := hopen f hsel
          cases d with
          | invalid => exact hd.elim
          | valid b =>
            cases f with
            | invalid => exact hf.elim
            | valid a =>
              simp [selectionHandler, hm, hr, hsel] at h
              by_cases hba : b < a
              · simp [isBefore, hba] at h
                cases hc : s.configuration.confirmation <;> simp [hc] at h <;>
                  (subst h; simp [saveValue, rangeInvariant, JSDate.dayOf]) <;>
                  exact Int.ediv_le_ediv (by decide) (le_of_lt hba)
              · simp [isBefore, hba] at h
                cases hc : s.configuration.confirmation <;> simp [hc] at h <;>
                  (subst h; simp [saveValue, rangeInvariant, JSDate.dayOf]) <;>
                  exact Int.ediv_le_ediv (by decide) (le_of_not_lt hba)
        | some u =>
          simp [selectionHandler, hm, hr, hsel] at h
          subst h; exact trivial
      | none =>
        simp [selectionHandler, hm, hr, hsel] at h
        subst h; exact trivial
      | single d0 =>
        simp [selectionHandler, hm, hr, hsel] at h
        subst h; exact trivial
      | multi ds =>
        simp [selectionHandler, hm, hr, hsel] at h
        subst h; exact trivial
    · simp [selectionHandler, hm, hr] at h
      cases hc : s.configuration.confirmation <;> simp [hc] at h <;>
        (subst h; simp [saveValue, rangeInvariant])

/-- The pre-state of the C2 witness: range mode, an open range at day 0. -/
def C2_state : PickerState :=
  { configuration := { selection := "range" }
    selection := .range (.valid 0) Option.none
    previousSelection := .none
    hoverRange := Option.none
    currentViewingDate := .valid 0
    closeCount := 0 }

/-- The post-state of the C2 witness (range closed and auto-committed). -/
def C2_state' : PickerState :=
  { configuration := { selection := "range" }
    selection := .range (.valid 0) (some (.valid msPerDay))
    previousSelection := .range (.valid 0) (some (.valid msPerDay))
    hoverRange := Option.none
    currentViewingDate := .valid 0
    closeCount := 1 }

/-- C2 witness: closing the open range of `C2_state` with day 1 produces
`C2_state'`, whose selection satisfies the invariant. -/
theorem C2_witness :
    selectionHandler (.valid msPerDay) C2_state = some C2_state'
    ∧ rangeInvariant C2_state'.selection :=
  ⟨by decide,
   C2_mutation_range_invariant C2_state (.valid msPerDay) C2_state' trivial
     (by intro f hf; cases hf; exact trivial) (by decide)⟩

/-! ## C6 — range closing orders endpoints, independent of click order -/

/-- C6: from an open range `{from: A, to: null}` the second choice `B`
closes to `{from: B, to: A}` when `B` precedes `A` and `{from: A, to: B}`
otherwise; and from an empty selection in range mode, choosing `A` then `B`
leads to exactly the same state as choosing `B` then `A`. -/
theorem C6_range_close_order (s : PickerState) (A B : JSDate)
    (hmode : s.configuration.selection = "range")
    (hA : A.isValid) (hB : B.isValid) :
    (s.selection = .range A Option.none →
      Option.map PickerState.selection (selectionHandler B s)
        = some (if B.getTime < A.getTime then Selection.range B (some A)
                else Selection.range A (some B)))
    ∧ (s.selection = .none →
       runActions [.select A, .select B] s = runActions [.select B, .select A] s) := by
  cases A with
  | invalid => exact hA.elim
  | valid a =>
    cases B with
    | invalid => exact hB.elim
    | valid b =>
      constructor
      · intro hsel
        simp [selectionHandler, hmode, hsel, isBefore, JSDate.getTime]
        by_cases hba : b < a
        · simp [hba]
          cases hc : s.configuration.confirmation <;> simp [hc, saveValue]
        · simp [hba]
          cases hc : s.configuration.confirmation <;> simp [hc, saveValue]
      · intro hsel
        simp [runActions, applyAction]
        simp [selectionHandler, hmode, hsel, isBefore, JSDate.getTime]
        rcases lt_trichotomy a b with hab | hab | hab
        · simp [hab, not_lt_of_gt hab]
        · subst hab
          simp
        · simp [hab, not_lt_of_gt hab]

/-- The pre-state of the C6 witness: range mode, nothing selected. -/
def C6_state : PickerState :=
  { configuration := { selection := "range" }
    selection := .none
    previousSelection := .none
    hoverRange := Option.none
    currentViewingDate := .valid 0
    closeCount := 0 }

/-- C6 witness: choosing day 0 then day 1 equals choosing day 1 then day 0
from the empty range-mode state. -/
theorem C6_witness :
    runActions [.select (.valid 0), .select (.valid msPerDay)] C6_state
      = runActions [.select (.valid msPerDay), .select (.valid 0)] C6_state :=
  (C6_range_close_order C6_state (.valid 0) (.valid msPerDay) rfl trivial trivial).2 rfl

/-! ## Multi-toggle lemmas (C3, C8) -/

theorem isEqual_iff_of_valid {x d : JSDate} (hx : x.isValid) (hd : d.isValid) :
    isEqual x d = true ↔ x = d := by
  cases x with
  | invalid => exact hx.elim
  | valid a =>
    cases d with
    | invalid => exact hd.elim
    | valid b => simp [isEqual]

/-- On an all-valid list, splicing out the first `isEqual` match is exactly
`List.erase` of the chosen date. -/
theorem eraseFirstEqual (ds : List JSDate) (d : JSDate)
    (hds : ∀ x ∈ ds, x.isValid) (hd : d.isValid) (hmem : d ∈ ds) :
    ∃ i, ds.findIdx? (fun s => isEqual s d) = some i ∧ ds.eraseIdx i = ds.erase d := by
  induction ds with
  | nil => cases hmem
  | cons x t ih =>
    by_cases hx : x = d
    · subst hx
      have hxx : isEqual x x = true :=
        (isEqual_iff_of_valid (hds x (by simp)) hd).mpr rfl
      exact ⟨0, by simp [List.findIdx?_cons, hxx], by simp⟩
    · have hxd : isEqual x d = false := by
        cases h : isEqual x d with
        | false => rfl
        | true => exact absurd ((isEqual_iff_of_valid (hds x (by simp)) hd).mp h) hx
      have hmem' : d ∈ t := by
        rcases List.mem_cons.mp hmem with h | h
        · exact absurd h.symm hx
        · exact h
      obtain ⟨i, hfind, herase⟩ :=
        ih (fun y hy => hds y (List.mem_cons_of_mem _ hy)) hmem'
      refine ⟨i + 1, ?_, ?_⟩
      · simp [List.findIdx?_cons, hxd, List.findIdx?_succ, hfind]
      · have hne : ¬(x == d) := by simpa using hx
        simp [List.eraseIdx_cons_succ, herase, List.erase_cons_tail hne]

theorem toggleMulti_of_mem {ds : List JSDate} {d : JSDate}
    (hds : ∀ x ∈ ds, x.isValid) (hd : d.isValid) (hmem : d ∈ ds) :
    toggleMulti ds d = jsSort (ds.erase d) := by
  obtain ⟨i, hfind, herase⟩ := eraseFirstEqual ds d hds hd hmem
  simp [toggleMulti, hfind, herase]

theorem toggleMulti_of_not_mem {ds : List JSDate} {d : JSDate}
    (hds : ∀ x ∈ ds, x.isValid) (hd : d.isValid) (hmem : d ∉ ds) :
    toggleMulti ds d = jsSort (ds ++ [d]) := by
  have hfind : ds.findIdx? (fun s => isEqual s d) = Option.none := by
    rw [List.findIdx?_eq_none_iff]
    intro x hx
    cases h : isEqual x d with
    | false => rfl
    | true =>
      exact absurd (((isEqual_iff_of_valid (hds x hx) hd).mp h) ▸ hx) hmem
  simp [toggleMulti, hfind]

/-! ## C3 — the multi-mode toggle and its totality -/

/-- C3, counterexample: in multi mode with `Selection = None` (what the
parser yields for absent/null input), choosing a day throws — the source
spreads `selection` as an array, and `null`/`undefined` is not iterable —
so the toggle is not total on the reachable states. -/
theorem C3_counterexample :
    selectionHandler (.valid 0)
      { configuration := { selection := "multi" }
        selection := .none
        previousSelection := .none
        hoverRange := Option.none
        currentViewingDate := .valid 0
        closeCount := 0 } = Option.none := by decide

/-- C3 (amended): in multi mode the handler is a total toggle on every
`Multi` (array) selection state — if the chosen valid day is a member it is
removed, else it is inserted and the result re-sorted ascending — but on
`Selection = None` it throws rather than toggling. -/
theorem C3_multi_toggle_total (s : PickerState) (d : JSDate) (ds : List JSDate)
    (hmode : s.configuration.selection = "multi")
    (hsel : s.selection = .multi ds)
    (hds : ∀ x ∈ ds, x.isValid) (hd : d.isValid) :
    selectionHandler d s = some { s with selection := .multi (toggleMulti ds d) }
    ∧ (d ∈ ds → (toggleMulti ds d).Perm (ds.erase d))
    ∧ (d ∉ ds → (toggleMulti ds d).Perm (ds ++ [d]))
    ∧ List.Sorted jsLe (toggleMulti ds d) := by
  refine ⟨by simp [selectionHandler, hmode, hsel], ?_, ?_, ?_⟩
  · intro hmem
    rw [toggleMulti_of_mem hds hd hmem]
    exact jsSort_perm _
  · intro hmem
    rw [toggleMulti_of_not_mem hds hd hmem]
    exact jsSort_perm _
  · by_cases hmem : d ∈ ds
    · rw [toggleMulti_of_mem hds hd hmem]; exact jsSort_sorted _
    · rw [toggleMulti_of_not_mem hds hd hmem]; exact jsSort_sorted _

/-- The pre-state of the C3 witness: multi mode with day 0 selected. -/
def C3_state : PickerState :=
  { configuration := { selection := "multi" }
    selection := .multi [.valid 0]
    previousSelection := .none
    hoverRange := Option.none
    currentViewingDate := .valid 0
    closeCount := 0 }

/-- C3 witness: toggling day 1 into `C3_state` succeeds and inserts it,
sorted. -/
theorem C3_witness :
    selectionHandler (.valid msPerDay) C3_state
      = some { C3_state with
               selection := .multi (toggleMulti [.valid 0] (.valid msPerDay)) }
    ∧ List.Sorted jsLe (toggleMulti [.valid 0] (.valid msPerDay)) :=
  ⟨(C3_multi_toggle_total C3_state (.valid msPerDay) [.valid 0] rfl rfl
      (by decide) trivial).1,
   (C3_multi_toggle_total C3_state (.valid msPerDay) [.valid 0] rfl rfl
      (by decide) trivial).2.2.2⟩

/-! ## C8 — double toggle -/

/-- The pre-state of the C8 counterexample: the store holds the duplicate
array `[day 0, day 0]`, which the parser itself produces (it does not
deduplicate). -/
def C8_state : PickerState :=
  { configuration := { selection := "multi" }
    selection := .multi [.valid 0, .valid 0]
    previousSelection := .none
    hoverRange := Option.none
    currentViewingDate := .valid 0
    closeCount := 0 }

/-- C8, counterexample: with the reachable duplicate selection
`[day 0, day 0]`, toggling day 0 twice removes one copy each time and ends
empty — calendar day 0 was selected before and is not after, so the
original set of selected days is not restored. -/
theorem C8_counterexample :
    Option.map PickerState.selection
        (runActions [.select (.valid 0), .select (.valid 0)] C8_state)
      = some (.multi ([] : List JSDate))
    ∧ (0 : Int) ∈ List.map JSDate.dayOf [JSDate.valid 0, JSDate.valid 0]
    ∧ (0 : Int) ∉ List.map JSDate.dayOf ([] : List JSDate) := by decide

/-- C8 (amended): on a duplicate-free all-valid `Multi` selection, toggling
the same valid date twice restores the original selection up to order — a
permutation, hence the same set of selected calendar days. -/
theorem C8_toggle_involution (ds : List JSDate) (d : JSDate)
    (hds : ∀ x ∈ ds, x.isValid) (hd : d.isValid) (hnodup : ds.Nodup) :
    (toggleMulti (toggleMulti ds d) d).Perm ds
    ∧ ∀ x : Int, x ∈ List.map JSDate.dayOf (toggleMulti (toggleMulti ds d) d)
        ↔ x ∈ List.map JSDate.dayOf ds := by
  have main : (toggleMulti (toggleMulti ds d) d).Perm ds := by
    by_cases hmem : d ∈ ds
    · rw [toggleMulti_of_mem hds hd hmem]
      have hvalid1 : ∀ x ∈ jsSort (ds.erase d), x.isValid := fun x hx =>
        hds x (List.mem_of_mem_erase ((jsSort_perm _).mem_iff.mp hx))
      have hnot : d ∉ jsSort (ds.erase d) := by
        intro hcon
        have : d ∈ ds.erase d := (jsSort_perm _).mem_iff.mp hcon
        exact absurd rfl ((hnodup.mem_erase_iff).mp this).1
      rw [toggleMulti_of_not_mem hvalid1 hd hnot]
      exact (jsSort_perm _).trans
        ((List.perm_append_singleton d (jsSort (ds.erase d))).trans
          (((jsSort_perm (ds.erase d)).cons d).trans
            (List.perm_cons_erase hmem).symm))
    · rw [toggleMulti_of_not_mem hds hd hmem]
      have hvalid1 : ∀ x ∈ jsSort (ds ++ [d]), x.isValid := by
        intro x hx
        rcases List.mem_append.mp ((jsSort_perm _).mem_iff.mp hx) with h | h
        · exact hds x h
        · simp at h; subst h; exact hd
      have hmem1 : d ∈ jsSort (ds ++ [d]) := by
        rw [(jsSort_perm _).mem_iff, List.mem_append]
        exact Or.inr (by simp)
      rw [toggleMulti_of_mem hvalid1 hd hmem1]
      have h1 : ((jsSort (ds ++ [d])).erase d).Perm ((ds ++ [d]).erase d) :=
        (jsSort_perm _).erase d
      have h2 : (ds ++ [d]).erase d = ds := by
        rw [List.erase_append_right _ hmem]
        simp
      have h3 : ((ds ++ [d]).erase d).Perm ds := by
        rw [h2]
      exact (jsSort_perm _).trans (h1.trans h3)
  refine ⟨main, fun x => ?_⟩
  exact (main.map JSDate.dayOf).mem_iff

/-- C8 witness: toggling day 2 twice on the duplicate-free selection
`[day 0, day 1]` restores it up to permutation. -/
theorem C8_witness :
    (toggleMulti (toggleMulti [JSDate.valid 0, .valid msPerDay] (.valid (2 * msPerDay)))
        (.valid (2 * msPerDay))).Perm [JSDate.valid 0, .valid msPerDay] :=
  (C8_toggle_involution [JSDate.valid 0, .valid msPerDay] (.valid (2 * msPerDay))
    (by decide) trivial (by decide)).1

/-! ## C7 — revert restores the committed selection -/

instance (configuration : DatePickerConfiguration) :
    DecidablePred (tentativeAction configuration) := fun a =>
  match a with
  | .select _ =>
    inferInstanceAs
      (Decidable (configuration.confirmation = true ∨ configuration.selection = "multi"))
  | .dayFocus _ => .isTrue trivial
  | .dayBlur _ => .isTrue trivial
  | .monthJump _ => .isTrue trivial
  | .save _ => .isFalse (fun hf => hf)
  | .revert => .isTrue trivial

/-- The focus handler only ever rewrites the hover range. -/
theorem focusHnadler_frame (d : JSDate) (s : PickerState) :
    (focusHnadler d s).previousSelection = s.previousSelection
    ∧ (focusHnadler d s).closeCount = s.closeCount
    ∧ (focusHnadler d s).configuration = s.configuration := by
  unfold focusHnadler
  split
  · exact ⟨rfl, rfl, rfl⟩
  · split
    · split
      · exact ⟨rfl, rfl, rfl⟩
      · exact ⟨rfl, rfl, rfl⟩
    · exact ⟨rfl, rfl, rfl⟩
  · exact ⟨rfl, rfl, rfl⟩

/-- A tentative (non-committing) action never touches the committed
previous selection, the close count, or the configuration. -/
theorem applyAction_tentative {a : Action} {s s' : PickerState}
    (ht : tentativeAction s.configuration a)
    (h : applyAction a s = some s') :
    s'.previousSelection = s.previousSelection
    ∧ s'.closeCount = s.closeCount
    ∧ s'.configuration = s.configuration := by
  cases a with
  | select d =>
    simp only [applyAction] at h
    by_cases hm : s.configuration.selection = "multi"
    · cases hsel : s.selection with
      | multi ds =>
        simp [selectionHandler, hm, hsel] at h
        subst h; exact ⟨rfl, rfl, rfl⟩
      | none => simp [selectionHandler, hm, hsel] at h
      | single d0 => simp [selectionHandler, hm, hsel] at h
      | range f t => simp [selectionHandler, hm, hsel] at h
    · have hc : s.configuration.confirmation = true := by
        rcases ht with hc | hmode
        · exact hc
        · exact absurd hmode hm
      by_cases hr : s.configuration.selection = "range"
      · cases hsel : s.selection with
        | range f t =>
          cases t with
          | none =>
            simp [selectionHandler, hm, hr, hsel, hc] at h
            subst h; exact ⟨rfl, rfl, rfl⟩
          | some u =>
            simp [selectionHandler, hm, hr, hsel] at h
            subst h; exact ⟨rfl, rfl, rfl⟩
        | none =>
          simp [selectionHandler, hm, hr, hsel] at h
          subst h; exact ⟨rfl, rfl, rfl⟩
        | single d0 =>
          simp [selectionHandler, hm, hr, hsel] at h
          subst h; exact ⟨rfl, rfl, rfl⟩
        | multi ds =>
          simp [selectionHandler, hm, hr, hsel] at h
          subst h; exact ⟨rfl, rfl, rfl⟩
      · simp [selectionHandler, hm, hr, hc] at h
        subst h; exact ⟨rfl, rfl, rfl⟩
  | dayFocus d =>
    simp only [applyAction, Option.some.injEq] at h
    subst h; exact focusHnadler_frame d s
  | dayBlur d =>
    simp only [applyAction, Option.some.injEq] at h
    subst h; exact ⟨rfl, rfl, rfl⟩
  | monthJump d =>
    simp only [applyAction, Option.some.injEq] at h
    subst h; exact ⟨rfl, rfl, rfl⟩
  | save u => exact ht.elim
  | revert =>
    simp only [applyAction, Option.some.injEq] at h
    subst h; exact ⟨rfl, rfl, rfl⟩

/-- A whole sequence of tentative actions preserves the previous selection,
the close count, and the configuration. -/
theorem runActions_tentative {acts : List Action} {s s' : PickerState}
    (ht : ∀ a ∈ acts, tentativeAction s.configuration a)
    (h : runActions acts s = some s') :
    s'.previousSelection = s.previousSelection
    ∧ s'.closeCount = s.closeCount
    ∧ s'.configuration = s.configuration := by
  induction acts generalizing s with
  | nil =>
    simp [runActions] at h
    subst h; exact ⟨rfl, rfl, rfl⟩
  | cons a rest ih =>
    simp only [runActions] at h
    cases ha : applyAction a s with
    | none => rw [ha] at h; exact Option.noConfusion h
    | some s1 =>
      rw [ha] at h
      obtain ⟨p1, c1, g1⟩ := applyAction_tentative (ht a (by simp)) ha
      obtain ⟨p2, c2, g2⟩ :=
        ih (fun b hb => by rw [g1]; exact ht b (List.mem_cons_of_mem _ hb)) h
      exact ⟨p2.trans p1, c2.trans c1, g2.trans g1⟩

/-- C7: after any successful sequence of tentative (non-committing)
mutations from `s`, `revertValue` restores the selection to the
`previousSelection` that was in force before the sequence, and reverting
never notifies the external close collaborator (the close count still
equals the initial one). -/
theorem C7_revert_restores (acts : List Action) (s s' : PickerState)
    (ht : ∀ a ∈ acts, tentativeAction s.configuration a)
    (h : runActions acts s = some s') :
    (revertValue s').selection = s.previousSelection
    ∧ (revertValue s').closeCount = s.closeCount := by
  obtain ⟨p, c, _⟩ := runActions_tentative ht h
  exact ⟨p, c⟩

/-- The pre-state of the C7 witness: range mode with confirmation on, a
committed single-day previous selection. -/
def C7_state : PickerState :=
  { configuration := { selection := "range", confirmation := true }
    selection := .none
    previousSelection := .single (.valid (7 * msPerDay))
    hoverRange := Option.none
    currentViewingDate := .valid 0
    closeCount := 0 }

/-- The state after the tentative sequence of the C7 witness: an opened and
closed (but uncommitted) range, with the previous selection untouched. -/
def C7_state' : PickerState :=
  { configuration := { selection := "range", confirmation := true }
    selection := .range (.valid 0) (some (.valid (2 * msPerDay)))
    previousSelection := .single (.valid (7 * msPerDay))
    hoverRange := Option.none
    currentViewingDate := .valid 0
    closeCount := 0 }

/-- C7 witness: open a range at day 0, hover day 1, close at day 2 (all
tentative under confirmation), then revert: the selection is back to the
committed day 7 and the close collaborator was never notified. -/
theorem C7_witness :
    (revertValue C7_state').selection = C7_state.previousSelection
    ∧ (revertValue C7_state').closeCount = C7_state.closeCount :=
  C7_revert_restores
    [.select (.valid 0), .dayFocus (.valid msPerDay), .select (.valid (2 * msPerDay))]
    C7_state C7_state' (by decide) (by decide)

/-! ## C9 — idempotent parse -/

theorem normalized_map_normalize {l : List JSDate} :
    ∀ y ∈ l.map normalize, normalize y = y := by
  intro y hy
  obtain ⟨z, _, rfl⟩ := List.mem_map.mp hy
  exact normalize_normalize z

/-- Re-normalizing and re-sorting an already normalized, sorted list is the
identity. -/
theorem reparse_multi_list {l : List JSDate} (hl : ∀ y ∈ l, normalize y = y) :
    jsSort ((jsSort l).map normalize) = jsSort l := by
  have h1 : ∀ x ∈ jsSort l, normalize x = x := fun x hx =>
    hl x ((jsSort_perm _).mem_iff.mp hx)
  rw [List.map_congr_left h1, List.map_id']
  exact jsSort_of_sorted (jsSort_sorted l)

theorem normalize_jsIndexNormalize (ds : List JSDate) (i : Nat) :
    normalize (jsIndexNormalize ds i) = jsIndexNormalize ds i := by
  cases h : ds[i]? with
  | none => simp [jsIndexNormalize, h, normalize]
  | some d => simp [jsIndexNormalize, h, normalize_normalize]

/-- C9: parsing is idempotent — re-parsing a parsed selection in the same
mode returns it unchanged, for every input shape and each of the three
selection modes. -/
theorem C9_parse_idempotent (v : Selection) (m : String)
    (hm : m = "single" ∨ m = "multi" ∨ m = "range") :
    parseSelection (parseSelection v m) m = parseSelection v m := by
  rcases hm with hm | hm | hm <;> subst hm
  · cases v with
    | none => rfl
    | single d => simp [parseSelection, normalize_normalize]
    | multi ds => simp [parseSelection, normalize_jsIndexNormalize]
    | range f t => simp [parseSelection, normalize_normalize]
  · cases v with
    | none => rfl
    | single d => simp [parseSelection, jsSort, normalize_normalize]
    | multi ds =>
      simp [parseSelection]
      exact reparse_multi_list normalized_map_normalize
    | range f t =>
      cases t with
      | none =>
        simp [parseSelection]
        apply reparse_multi_list
        intro y hy
        simp at hy
        subst hy
        exact normalize_normalize f
      | some t' =>
        simp [parseSelection]
        apply reparse_multi_list
        intro y hy
        simp at hy
        rcases hy with hy | hy <;> subst hy
        · exact normalize_normalize f
        · exact normalize_normalize t'
  · cases v with
    | none => rfl
    | single d => simp [parseSelection, normalize_normalize]
    | multi ds =>
      cases h : ds[1]? with
      | none => simp [parseSelection, normalize_jsIndexNormalize, h]
      | some d => simp [parseSelection, normalize_jsIndexNormalize, h, normalize_normalize]
    | range f t =>
      cases t with
      | none => simp [parseSelection, normalize_normalize]
      | some t' => simp [parseSelection, normalize_normalize]

/-- C9 witness: a concrete double parse in multi mode. -/
theorem C9_witness :
    parseSelection (parseSelection (.multi [.valid 3600000, .valid 0]) "multi") "multi"
      = parseSelection (.multi [.valid 3600000, .valid 0]) "multi" :=
  C9_parse_idempotent (.multi [.valid 3600000, .valid 0]) "multi" (Or.inr (Or.inl rfl))

end DatePicker
